import Mathlib

/-!
# Verification of the amCharts4 date-axis engine

Shallow embedding of `src/.internal/charts/axes/DateAxis.ts` and
`src/.internal/charts/axes/AxisRendererX.ts`: the interval-selection
algorithm (`chooseInterval`), base-granularity inference
(`updateAxisBySeries`), the empty-period break collapser
(`addEmptyUnitsBreaks`), break fixing (`fixAxisBreaks`), the grid-date
walker (`getGridDate`) and the position mappings.

JavaScript numbers are embedded as exact rationals (`ℚ`) where fractional
arithmetic matters, timestamps as `ℤ` (all `Date.getTime()` values are
integers), and counts as `ℕ`.  `Math.ceil` is `Int.ceil`, `Math.round`
is `⌊x + 1/2⌋` (JS rounds half away from zero upwards), `Math.floor` is
`Int.floor`.
-/

namespace DateAxis

/-- A calendar time unit, as in `ITimeInterval.timeUnit`. -/
inductive TimeUnit where
  | millisecond
  | second
  | minute
  | hour
  | day
  | week
  | month
  | year
deriving DecidableEq, Repr

/-- A `(unit, count)` granularity — `ITimeInterval`. -/
structure TimeInterval where
  timeUnit : TimeUnit
  count : ℕ
deriving DecidableEq, Repr

instance : Inhabited TimeInterval := ⟨⟨TimeUnit.millisecond, 1⟩⟩

/-- Modelled from the spec: the per-unit millisecond durations used by the
external calendar-arithmetic helper `$time.getDuration` (`core/utils/Time.ts`,
not under `src/`).  The spec (§3) states durations of month/year are
approximate fixed constants used only for step counting; the constants are
pinned down by the spec's scenarios (Scenario B requires
`29.5 days < duration(month) ≤ 58 days`; the §4.2 threshold `1 year − 1.01
days` is consistent with a 365-day year). -/
def unitDuration : TimeUnit → ℕ
  | TimeUnit.millisecond => 1
  | TimeUnit.second => 1000
  | TimeUnit.minute => 60000
  | TimeUnit.hour => 3600000
  | TimeUnit.day => 86400000
  | TimeUnit.week => 604800000
  | TimeUnit.month => 2592000000
  | TimeUnit.year => 31536000000

/-- Modelled from the spec: `$time.getDuration(unit, count)` — duration in
milliseconds of `count` units (count may be fractional, e.g. `1.01` days). -/
def getDuration (u : TimeUnit) (c : ℚ) : ℚ :=
  (unitDuration u : ℚ) * c

/-- Duration of a `TimeInterval` in milliseconds. -/
def intervalDuration (i : TimeInterval) : ℚ :=
  getDuration i.timeUnit (i.count : ℚ)

/-- The default interval catalog pushed into `gridIntervals` by the
`DateAxis` constructor (DateAxis.ts lines 430–473), ordered finest to
coarsest. -/
def gridIntervals : List TimeInterval :=
  [⟨TimeUnit.millisecond, 1⟩,
   ⟨TimeUnit.millisecond, 5⟩,
   ⟨TimeUnit.millisecond, 10⟩,
   ⟨TimeUnit.millisecond, 50⟩,
   ⟨TimeUnit.millisecond, 100⟩,
   ⟨TimeUnit.millisecond, 500⟩,
   ⟨TimeUnit.second, 1⟩,
   ⟨TimeUnit.second, 5⟩,
   ⟨TimeUnit.second, 10⟩,
   ⟨TimeUnit.second, 30⟩,
   ⟨TimeUnit.minute, 1⟩,
   ⟨TimeUnit.minute, 5⟩,
   ⟨TimeUnit.minute, 10⟩,
   ⟨TimeUnit.minute, 15⟩,
   ⟨TimeUnit.minute, 30⟩,
   ⟨TimeUnit.hour, 1⟩,
   ⟨TimeUnit.hour, 3⟩,
   ⟨TimeUnit.hour, 6⟩,
   ⟨TimeUnit.hour, 12⟩,
   ⟨TimeUnit.day, 1⟩,
   ⟨TimeUnit.day, 2⟩,
   ⟨TimeUnit.day, 3⟩,
   ⟨TimeUnit.day, 4⟩,
   ⟨TimeUnit.day, 5⟩,
   ⟨TimeUnit.week, 1⟩,
   ⟨TimeUnit.month, 1⟩,
   ⟨TimeUnit.month, 2⟩,
   ⟨TimeUnit.month, 3⟩,
   ⟨TimeUnit.month, 6⟩,
   ⟨TimeUnit.year, 1⟩,
   ⟨TimeUnit.year, 2⟩,
   ⟨TimeUnit.year, 5⟩,
   ⟨TimeUnit.year, 10⟩,
   ⟨TimeUnit.year, 50⟩,
   ⟨TimeUnit.year, 100⟩,
   ⟨TimeUnit.year, 200⟩,
   ⟨TimeUnit.year, 500⟩,
   ⟨TimeUnit.year, 1000⟩,
   ⟨TimeUnit.year, 2000⟩,
   ⟨TimeUnit.year, 5000⟩,
   ⟨TimeUnit.year, 10000⟩,
   ⟨TimeUnit.year, 100000⟩]

/-- `DateAxis.chooseInterval(index, duration, gridCount)`
(DateAxis.ts lines 1177–1203), embedded with an explicit recursion budget
`fuel` standing for the bounded `index + 1` recursion (each recursive call
increases `index` by one and stops before `index` passes the end of the
catalog, so any `fuel ≥ l.length - index` reproduces the source exactly;
the fuel-0 fallback is the source's final `else` branch, returning the
entry at the current index). -/
def chooseIntervalGo (l : List TimeInterval) :
    ℕ → ℕ → ℚ → ℚ → TimeInterval
  | 0, index, _, _ => l.getD index default
  | fuel + 1, index, duration, gridCount =>
    let gridInterval := l.getD index default
    let intervalDur := intervalDuration gridInterval
    let lastIndex := l.length - 1
    if index ≥ lastIndex then
      l.getD lastIndex default
    else
      let count : ℤ := Int.ceil (duration / intervalDur)
      if duration < intervalDur ∧ index > 0 then
        l.getD (index - 1) default
      else if (count : ℚ) ≤ gridCount then
        l.getD index default
      else if index + 1 < l.length then
        chooseIntervalGo l fuel (index + 1) duration gridCount
      else
        l.getD index default

/-- `DateAxis.chooseInterval` entered at `index` over catalog `l`; the
budget `l.length` always suffices. -/
def chooseInterval (l : List TimeInterval) (index : ℕ)
    (duration gridCount : ℚ) : TimeInterval :=
  chooseIntervalGo l l.length index duration gridCount

/-- Millisecond duration of a `TimeInterval` as a natural number (the
catalog only holds integral durations); `intervalDuration` is its cast. -/
def intervalDurationN (i : TimeInterval) : ℕ :=
  unitDuration i.timeUnit * i.count

/-- JavaScript `Math.ceil(a / d)` for integer arguments: exact rational
division followed by ceiling, computed with integer floor division. -/
def jsCeilDiv (a : ℤ) (d : ℕ) : ℤ :=
  -((-a) / (d : ℤ))

/-- Companion evaluator for `chooseIntervalGo` when `duration` and
`gridCount` are integers: the same control flow over integer arithmetic
(kernel-computable, unlike `ℚ`).  `chooseIntervalGo_eq_goZ` proves it
agrees with the embedding. -/
def chooseIntervalGoZ (l : List TimeInterval) :
    ℕ → ℕ → ℤ → ℤ → TimeInterval
  | 0, index, _, _ => l.getD index default
  | fuel + 1, index, duration, gridCount =>
    let gridInterval := l.getD index default
    let intervalDur := intervalDurationN gridInterval
    let lastIndex := l.length - 1
    if index ≥ lastIndex then
      l.getD lastIndex default
    else
      let count : ℤ := jsCeilDiv duration intervalDur
      if duration < (intervalDur : ℤ) ∧ index > 0 then
        l.getD (index - 1) default
      else if count ≤ gridCount then
        l.getD index default
      else if index + 1 < l.length then
        chooseIntervalGoZ l fuel (index + 1) duration gridCount
      else
        l.getD index default

/-- Integer-input entry point mirroring `chooseInterval`. -/
def chooseIntervalZ (l : List TimeInterval) (index : ℕ)
    (duration gridCount : ℤ) : TimeInterval :=
  chooseIntervalGoZ l l.length index duration gridCount

/-- Modelled from the spec: `$time.round` (`core/utils/Time.ts`, not
under `src/`) for the fixed-length units the claims exercise — round a
timestamp down to the enclosing multiple of the interval's duration,
anchored at the UTC epoch (spec §2: "round-to" operations; month/year
rounding is calendar-based in the original and approximated here by
their fixed catalog durations, which no proved claim exercises). -/
def timeRound (u : TimeUnit) (count : ℕ) (t : ℤ) : ℤ :=
  let d : ℤ := (unitDuration u * count : ℕ)
  (t / d) * d

/-- Modelled from the spec: `$time.add` for fixed-length units — advance
a timestamp by `count` units. -/
def timeAdd (u : TimeUnit) (count : ℤ) (t : ℤ) : ℤ :=
  t + (unitDuration u : ℤ) * count

/-- One break produced by the empty-period scan: `startDate` is set when
the break opens; `endDate` stays absent (`none`) if the scan ends with
the break still open. -/
structure ScanBreak where
  startValue : ℤ
  endValue : Option ℤ
deriving DecidableEq, Repr

/-- The still-open break the scan carries, as it appears in the final
break list (created when opened, end date not yet set). -/
def openToList : Option ℤ → List ScanBreak
  | some s => [⟨s, none⟩]
  | none => []

/-- The scan loop of `DateAxis.addEmptyUnitsBreaks` (DateAxis.ts lines
794–819), one iteration per base-interval cell: while `date < max -
baseDuration`, advance one cell, then open a break at the cell start if
no series has data keyed there, or close an open break at the cell start
minus one millisecond if data is found.  `fuel` is the loop's iteration
count (the loop guard is re-checked each step, so any fuel at least the
true iteration count reproduces the loop). -/
def scanEmptyUnits (hasData : ℤ → Bool) (d maxV : ℤ) :
    ℕ → ℤ → List ScanBreak → Option ℤ → List ScanBreak
  | 0, _, acc, opn => acc ++ openToList opn
  | fuel + 1, date, acc, opn =>
    if date < maxV - d then
      let startTime := date + d
      if hasData startTime then
        match opn with
        | some s =>
          scanEmptyUnits hasData d maxV fuel startTime
            (acc ++ [⟨s, some (startTime - 1)⟩]) none
        | none => scanEmptyUnits hasData d maxV fuel startTime acc none
      else
        match opn with
        | some s => scanEmptyUnits hasData d maxV fuel startTime acc (some s)
        | none =>
          scanEmptyUnits hasData d maxV fuel startTime acc (some startTime)
    else acc ++ openToList opn

/-- `DateAxis.addEmptyUnitsBreaks` (DateAxis.ts lines 783–821): when
`skipEmptyPeriods` is enabled (and min/max are numbers, which the `ℤ`
embedding makes intrinsic), clear the break list and rescan from the
base-interval-rounded minimum.  The iteration count passed as fuel is
`⌈(max - baseDuration - roundedMin) / baseDuration⌉`, exactly how often
the loop guard `date < max - baseDuration` holds as `date` advances by
one base duration per iteration. -/
def addEmptyUnitsBreaks (skipEmptyPeriods : Bool) (hasData : ℤ → Bool)
    (u : TimeUnit) (count : ℕ) (minV maxV : ℤ) : List ScanBreak :=
  if skipEmptyPeriods then
    let d : ℤ := (unitDuration u * count : ℕ)
    let date0 := timeRound u count minV
    let iters := ((maxV - d - date0 + (d - 1)) / d).toNat
    scanEmptyUnits hasData d maxV iters date0 [] none
  else []

/-- Weekday pattern for the claim's Scenario C, anchored at the UTC
epoch (1970-01-01 was a Thursday, so day index `k` is a Saturday iff
`k % 7 = 2` and a Monday iff `k % 7 = 4`): data exactly on the fifteen
weekdays Monday..Friday of three consecutive weeks — day indices 4–8,
11–15 and 18–22 — keyed at the cell (midnight) start times. -/
def weekdayHasData (t : ℤ) : Bool :=
  (([4, 5, 6, 7, 8, 11, 12, 13, 14, 15, 18, 19, 20, 21, 22] : List ℤ).map
    (fun k => k * 86400000)).contains t

/-- Ordering between two scan breaks: the first is closed and ends
strictly before the second starts. -/
def breakRel (b1 b2 : ScanBreak) : Prop :=
  ∃ e, b1.endValue = some e ∧ e < b2.startValue

/-- Well-formed break list: pairwise ordered with closed predecessors
(so at most the last break can still be open), and every closed break
ends no earlier than it starts. -/
def breaksWellFormed (l : List ScanBreak) : Prop :=
  l.Pairwise breakRel ∧ ∀ b ∈ l, ∀ e, b.endValue = some e → b.startValue ≤ e

/-- A pixel point, as in `IPoint`. -/
structure Point where
  x : ℚ
  y : ℚ
deriving DecidableEq, Repr

/-- Modelled from the spec: `ValueAxis.valueToPosition` restricted to an
axis with no breaks (`ValueAxis.ts` is not under `src/`; spec §4.5: the
raw linear fraction `(timestamp - min)/(max - min)`, with the break
adjustment vanishing when there are no breaks). -/
def valueToPosition (minV maxV v : ℚ) : ℚ :=
  (v - minV) / (maxV - minV)

/-- Modelled from the spec: `ValueAxis.positionToValue` with no breaks —
the inverse linear map `min + p·(max - min)`. -/
def positionToValue (minV maxV p : ℚ) : ℚ :=
  minV + p * (maxV - minV)

/-- `AxisRendererX.axisLength` (AxisRendererX.ts lines 273–276): the
measured width minus both horizontal paddings. -/
def axisLength (measuredWidth pixelPaddingRight pixelPaddingLeft : ℚ) : ℚ :=
  measuredWidth - pixelPaddingRight - pixelPaddingLeft

/-- Modelled from the spec: `AxisRenderer.positionToCoordinate`
(`AxisRenderer.ts` is not under `src/`; spec §4.5: position maps to a
pixel offset along the axis length). -/
def positionToCoordinate (len p : ℚ) : ℚ :=
  p * len

/-- Modelled from the spec: `AxisRenderer.coordinateToPosition`, the
reciprocal computation of `positionToCoordinate`. -/
def coordinateToPosition (len c : ℚ) : ℚ :=
  c / len

/-- `AxisRendererX.positionToPoint` (AxisRendererX.ts lines 284–286):
`{ x: positionToCoordinate(position), y: 0 }`. -/
def positionToPoint (len p : ℚ) : Point :=
  ⟨positionToCoordinate len p, 0⟩

/-- `AxisRendererX.pointToPosition` (AxisRendererX.ts lines 295–297):
`coordinateToPosition(point.x)`. -/
def pointToPosition (len : ℚ) (pt : Point) : ℚ :=
  coordinateToPosition len pt.x

/-- An axis break as the grid-date walker sees it: value bounds, an
optional end (a break left open by the scan has none), and the 0–1
compression factor `breakSize`. -/
structure ABreak where
  startValue : ℤ
  endValue : Option ℤ
  breakSize : ℚ

/-- Modelled from the spec: `Axis.isInBreak` (`Axis.ts` is not under
`src/`) — the first break whose `[startValue, endValue]` range contains
the timestamp; a break with no end date never matches (in the source the
comparison against an undefined end value is false). -/
def isInBreak (breaks : List ABreak) (t : ℤ) : Option ABreak :=
  breaks.find? (fun b =>
    match b.endValue with
    | some e => decide (b.startValue ≤ t ∧ t ≤ e)
    | none => false)

/-- Clipped overlap length of `[a, b]` with `[s, e]`. -/
def breakOverlap (a b s e : ℤ) : ℤ :=
  max 0 (min b e - max a s)

/-- Modelled from the spec: `ValueAxis.adjustDifference(a, b)`
(`ValueAxis.ts` is not under `src/`; spec §4.5) — the elapsed duration
`b - a` with each break contributing only `breakSize` times its real
overlap with the range instead of the full overlap. -/
def adjustDifference (breaks : List ABreak) (a b : ℤ) : ℚ :=
  ((b - a : ℤ) : ℚ) -
    (breaks.map (fun br =>
      match br.endValue with
      | some e => ((breakOverlap a b br.startValue e : ℤ) : ℚ) * (1 - br.breakSize)
      | none => 0)).sum

/-- JavaScript `Math.round`: round half toward positive infinity. -/
def jsRound (x : ℚ) : ℤ :=
  ⌊x + 1 / 2⌋

/-- `DateAxis.getGridDate(date, intervalCount)` (DateAxis.ts lines
867–901) for grid interval `{u, realCount}`: round the date down to the
unit boundary (count 1), add `intervalCount` units; if the result lies in
a break that has an end date, jump to the break's end re-rounded at the
display interval (stepping one interval forward if rounding moved before
the end); then re-measure the break-adjusted duration back to the rounded
start and recurse with `intervalCount + realCount` whenever fewer than
`realCount` whole units elapsed.  `fuel` bounds the recursion (the source
recurses unboundedly; `none` models non-termination within the budget). -/
def getGridDate (u : TimeUnit) (realCount : ℕ) (breaks : List ABreak) :
    ℕ → ℤ → ℕ → Option ℤ
  | 0, _, _ => none
  | fuel + 1, date, intervalCount =>
    let rounded := timeRound u 1 date
    let ts0 := timeAdd u (intervalCount : ℤ) rounded
    let newDate :=
      match isInBreak breaks ts0 with
      | some br =>
        match br.endValue with
        | some e =>
          let nd := timeRound u realCount e
          if nd < e then timeAdd u (realCount : ℤ) nd else nd
        | none => ts0
      | none => ts0
    let durationBreaksRemoved := adjustDifference breaks rounded newDate
    let countBreaksRemoved :=
      jsRound (durationBreaksRemoved / (unitDuration u : ℚ))
    if countBreaksRemoved < (realCount : ℤ) then
      getGridDate u realCount breaks fuel rounded (intervalCount + realCount)
    else
      some newDate

/-- `Number.MAX_VALUE`, the sentinel stored in the per-series
minimum-gap accumulators: `(2 − 2⁻⁵²)·2¹⁰²³ = (2⁵³ − 1)·2⁹⁷¹`. -/
def numberMaxValue : ℕ :=
  (2 ^ 53 - 1) * 2 ^ 971

/-- The `DateAxis.minDifference` getter (DateAxis.ts lines 697–711): fold
the per-series accumulators down to their minimum starting from the
`Number.MAX_VALUE` sentinel, then fall back to one day when the minimum
is still the sentinel or equals zero. -/
def minDifference (accs : List ℕ) : ℕ :=
  let m := accs.foldl (fun m a => if m > a then a else m) numberMaxValue
  if m = numberMaxValue ∨ m = 0 then unitDuration TimeUnit.day else m

/-- The grid-interval computation of `DateAxis.calculateZoom`
(DateAxis.ts lines 597–606): `chooseInterval(0, span, gridCount)` over the
zoomed span, clamped up to a copy of the base interval whenever its
duration is smaller than the base duration. -/
def calculateZoomGridInterval (span gridCount : ℚ) (base : TimeInterval) :
    TimeInterval :=
  let g := chooseInterval gridIntervals 0 span gridCount
  if intervalDuration g < intervalDuration base then base else g

/-- `DateAxis.updateAxisBySeries` (DateAxis.ts lines 1437–1479): the
inferred base interval as a function of `minDifference` — the result of
`chooseInterval(0, minDifference, 1)` with the short-month / DST
promotion heuristics applied by sequential conditional mutation.  The
float expression `getDuration("year",1) - getDuration("day",1.01)` is
embedded as the exact rational; for the integer millisecond gaps the
getter produces, the `>=` comparison agrees with the float one (the
float threshold differs from the exact one by less than `10⁻⁷` and the
exact threshold is an integer). -/
def updateAxisBySeriesInterval (md : ℚ) : TimeInterval :=
  let b0 := chooseInterval gridIntervals 0 md 1
  let b1 := if md ≥ getDuration TimeUnit.day 27 ∧ b0.timeUnit = TimeUnit.week
    then ⟨TimeUnit.month, 1⟩ else b0
  let b2 := if b1.timeUnit = TimeUnit.month then
      let c1 := if md ≥ getDuration TimeUnit.day (29 * 2) ∧ b1.count = 1
        then 2 else b1.count
      let c2 := if md ≥ getDuration TimeUnit.day (29 * 3) ∧ c1 = 2
        then 3 else c1
      let c3 := if md ≥ getDuration TimeUnit.day (29 * 6) ∧ c2 = 5
        then 6 else c2
      (⟨b1.timeUnit, c3⟩ : TimeInterval)
    else b1
  let b3 := if md ≥ getDuration TimeUnit.hour 23 ∧ b2.timeUnit = TimeUnit.hour
    then ⟨TimeUnit.day, 1⟩ else b2
  let b4 := if md ≥ getDuration TimeUnit.week 1 - getDuration TimeUnit.hour 1 ∧
      b3.timeUnit = TimeUnit.day
    then ⟨TimeUnit.week, 1⟩ else b3
  let b5 := if md ≥ getDuration TimeUnit.year 1 - getDuration TimeUnit.day 1.01 ∧
      b4.timeUnit = TimeUnit.month
    then ⟨TimeUnit.year, 1⟩ else b4
  b5

/-- Restatement of the base-granularity inference following the claim's
own wording: `chooseInterval(0, minDifference, 1)` followed, in order, by
the promotions at the claim's thresholds written out in milliseconds
(27 d, 58 d, 87 d, 174 d, 23 h, 1 week − 1 hour, 1 year − 1.01 days). -/
def specBaseGranularity (md : ℚ) : TimeInterval :=
  let b0 := chooseInterval gridIntervals 0 md 1
  let b1 := if md ≥ 2332800000 ∧ b0.timeUnit = TimeUnit.week
    then ⟨TimeUnit.month, 1⟩ else b0
  let b2 := if b1.timeUnit = TimeUnit.month then
      let c1 := if md ≥ 5011200000 ∧ b1.count = 1 then 2 else b1.count
      let c2 := if md ≥ 7516800000 ∧ c1 = 2 then 3 else c1
      let c3 := if md ≥ 15033600000 ∧ c2 = 5 then 6 else c2
      (⟨b1.timeUnit, c3⟩ : TimeInterval)
    else b1
  let b3 := if md ≥ 82800000 ∧ b2.timeUnit = TimeUnit.hour
    then ⟨TimeUnit.day, 1⟩ else b2
  let b4 := if md ≥ 601200000 ∧ b3.timeUnit = TimeUnit.day
    then ⟨TimeUnit.week, 1⟩ else b3
  let b5 := if md ≥ 31448736000 ∧ b4.timeUnit = TimeUnit.month
    then ⟨TimeUnit.year, 1⟩ else b4
  b5

/-- An axis break as `DateAxis.fixAxisBreaks` sees it after the base
class ordered and adjusted it: actual start date, adjusted value bounds,
and the break's relative start/end positions on the axis. -/
structure FixBreak where
  startDate : ℤ
  adjustedStartValue : ℤ
  adjustedEndValue : ℤ
  startPosition : ℚ
  endPosition : ℚ

/-- The per-break grid budget of `DateAxis.fixAxisBreaks` (DateAxis.ts
line 835): the axis grid count scaled by the break's share of the
visible `[start, end]` range, ceiled. -/
def fixBreakGridCount (gridCount start endP : ℚ) (b : FixBreak) : ℤ :=
  Int.ceil (gridCount * (min endP b.endPosition - max start b.startPosition) /
    (endP - start))

/-- The break's own grid interval (DateAxis.ts line 836):
`chooseInterval(0, adjustedEndValue - adjustedStartValue, breakGridCount)`. -/
def fixBreakGridInterval (gridCount start endP : ℚ) (b : FixBreak) :
    TimeInterval :=
  chooseInterval gridIntervals 0
    ((b.adjustedEndValue - b.adjustedStartValue : ℤ) : ℚ)
    ((fixBreakGridCount gridCount start endP b : ℤ) : ℚ)

/-- The break's first internal grid date (DateAxis.ts lines 837–842):
round the adjusted start value at the break's own grid interval, then
add one step when the rounded date lies strictly after the break's
actual start date (`gridDate.getTime() > axisBreak.startDate.getTime()`). -/
def fixBreakGridDate (gridCount start endP : ℚ) (b : FixBreak) : ℤ :=
  let gi := fixBreakGridInterval gridCount start endP b
  let gridDate := timeRound gi.timeUnit gi.count b.adjustedStartValue
  if gridDate > b.startDate then timeAdd gi.timeUnit (gi.count : ℤ) gridDate
  else gridDate

/-- The first internal grid date as the claim words it: rounded at the
break's own grid interval, nudged forward one step if rounding landed
before the break's actual start. -/
def claimFixBreakGridDate (gridCount start endP : ℚ) (b : FixBreak) : ℤ :=
  let gi := fixBreakGridInterval gridCount start endP b
  let gridDate := timeRound gi.timeUnit gi.count b.adjustedStartValue
  if gridDate < b.startDate then timeAdd gi.timeUnit (gi.count : ℤ) gridDate
  else gridDate

/-- A one-hour break starting at 00:05:00.123 (not on a grid boundary),
spanning the whole visible axis. -/
def cexFixBreak : FixBreak :=
  ⟨300123, 300123, 3900123, 0, 1⟩

/-- A one-day axis break from day 2 to day 3, fully collapsed. -/
def demoBreaks : List ABreak :=
  [⟨172800000, some 259200000, 0⟩]

theorem intervalDuration_eq_cast (i : TimeInterval) :
    intervalDuration i = ((intervalDurationN i : ℕ) : ℚ) := by
  simp [intervalDuration, intervalDurationN, getDuration]

theorem ceil_cast_div_natCast (a : ℤ) (d : ℕ) :
    ⌈((a : ℚ) / (d : ℚ))⌉ = jsCeilDiv a d := by
  rw [jsCeilDiv, show ((a : ℚ)) = -(-(a : ℚ)) by ring, neg_div, Int.ceil_neg,
    ← Int.cast_neg, Rat.floor_intCast_div_natCast]

theorem chooseIntervalGo_eq_goZ (l : List TimeInterval) (D G : ℤ) :
    ∀ fuel index,
      chooseIntervalGo l fuel index (D : ℚ) (G : ℚ) =
        chooseIntervalGoZ l fuel index D G := by
  intro fuel
  induction fuel with
  | zero => intro index; rfl
  | succ fuel ih =>
    intro index
    have h1 : ((D : ℚ) < intervalDuration (l.getD index default) ∧ index > 0) ↔
        (D < (intervalDurationN (l.getD index default) : ℤ) ∧ index > 0) := by
      rw [intervalDuration_eq_cast]
      constructor
      · rintro ⟨ha, hb⟩
        exact ⟨by exact_mod_cast ha, hb⟩
      · rintro ⟨ha, hb⟩
        exact ⟨by exact_mod_cast ha, hb⟩
    have h2 : ((⌈(D : ℚ) / intervalDuration (l.getD index default)⌉ : ℚ) ≤ (G : ℚ)) ↔
        (jsCeilDiv D (intervalDurationN (l.getD index default)) ≤ G) := by
      rw [intervalDuration_eq_cast, ceil_cast_div_natCast, Int.cast_le]
    simp only [chooseIntervalGo, chooseIntervalGoZ, h1, h2, ih]

theorem chooseInterval_eq_Z (l : List TimeInterval) (index : ℕ) (D G : ℤ) :
    chooseInterval l index (D : ℚ) (G : ℚ) = chooseIntervalZ l index D G :=
  chooseIntervalGo_eq_goZ l D G l.length index

/-- Exhaustive branch analysis of `chooseIntervalGo`: every exit either
accepted the candidate (so the step count fits the grid budget), clamped
at the catalog end, or stepped back to the predecessor of an entry whose
duration exceeds the span. -/
theorem chooseIntervalGo_bound (l : List TimeInterval) (D G : ℚ) :
    ∀ fuel index, index < l.length → l.length ≤ index + fuel →
      (((⌈D / intervalDuration (chooseIntervalGo l fuel index D G)⌉ : ℤ) : ℚ) ≤ G)
      ∨ chooseIntervalGo l fuel index D G = l.getD (l.length - 1) default
      ∨ ∃ j, j + 1 < l.length ∧
          chooseIntervalGo l fuel index D G = l.getD j default ∧
          D < intervalDuration (l.getD (j + 1) default) := by
  intro fuel
  induction fuel with
  | zero => intro index h1 h2; omega
  | succ fuel ih =>
    intro index h1 h2
    by_cases hlast : index ≥ l.length - 1
    · right; left
      simp only [chooseIntervalGo, if_pos hlast]
    · by_cases hback : D < intervalDuration (l.getD index default) ∧ index > 0
      · right; right
        refine ⟨index - 1, by omega, ?_, ?_⟩
        · simp only [chooseIntervalGo, if_neg hlast, if_pos hback]
        · have hj : index - 1 + 1 = index := by omega
          rw [hj]
          exact hback.1
      · by_cases hcount :
          ((⌈D / intervalDuration (l.getD index default)⌉ : ℤ) : ℚ) ≤ G
        · left
          simp only [chooseIntervalGo, if_neg hlast, if_neg hback, if_pos hcount]
          exact hcount
        · have hnext : index + 1 < l.length := by omega
          have hstep : chooseIntervalGo l (fuel + 1) index D G =
              chooseIntervalGo l fuel (index + 1) D G := by
            simp only [chooseIntervalGo, if_neg hlast, if_neg hback,
              if_neg hcount, if_pos hnext]
          rw [hstep]
          exact ih (index + 1) hnext (by omega)

/-- Folding the accumulators from the sentinel leaves the sentinel when
every accumulator still holds the sentinel. -/
theorem foldl_min_sentinel :
    ∀ accs : List ℕ, (∀ a ∈ accs, a = numberMaxValue) →
      accs.foldl (fun m a => if m > a then a else m) numberMaxValue =
        numberMaxValue := by
  have step : ∀ accs : List ℕ, ∀ m0 : ℕ, (∀ a ∈ accs, a = m0) →
      accs.foldl (fun m a => if m > a then a else m) m0 = m0 := by
    intro accs
    induction accs with
    | nil => intro m0 _; rfl
    | cons a t ih =>
      intro m0 h
      have ha : a = m0 := h a (List.mem_cons_self a t)
      have ht : ∀ x ∈ t, x = m0 := fun x hx => h x (List.mem_cons_of_mem a hx)
      simp only [List.foldl_cons, ha, lt_irrefl, if_neg (lt_irrefl m0)]
      exact ih m0 ht
  exact fun accs h => step accs numberMaxValue h

/-- C10: when the accumulator minimum is zero (two adjacent points share
a timestamp) or every accumulator is still the `Number.MAX_VALUE`
sentinel (no gap ever recorded), the `minDifference` getter returns the
duration of one day — the zero-gap case takes the same fallback as the
no-data case. -/
theorem minDifference_day_fallback (accs : List ℕ)
    (h : accs.foldl (fun m a => if m > a then a else m) numberMaxValue = 0 ∨
      ∀ a ∈ accs, a = numberMaxValue) :
    minDifference accs = 86400000 := by
  unfold minDifference
  rcases h with h0 | hs
  · rw [if_pos (Or.inr h0)]
    rfl
  · rw [if_pos (Or.inl (foldl_min_sentinel accs hs))]
    rfl

/-- C10 (witness): a single series whose accumulator recorded a zero gap
falls back to one day. -/
theorem minDifference_day_fallback_witness :
    minDifference [0] = 86400000 :=
  minDifference_day_fallback [0]
    (Or.inl (by norm_num [List.foldl, numberMaxValue]))

/-- C5: after `calculateZoom`, the displayed grid interval is never finer
than the base interval — its duration is at least the base duration, and
whenever `chooseInterval` over the zoomed span yields a finer interval,
the result is exactly the base interval. -/
theorem calculateZoom_clamp (span gridCount : ℚ) (base : TimeInterval) :
    intervalDuration base ≤
      intervalDuration (calculateZoomGridInterval span gridCount base) ∧
    (intervalDuration (chooseInterval gridIntervals 0 span gridCount) <
        intervalDuration base →
      calculateZoomGridInterval span gridCount base = base) := by
  unfold calculateZoomGridInterval
  by_cases h : intervalDuration (chooseInterval gridIntervals 0 span gridCount) <
      intervalDuration base
  · rw [if_pos h]
    exact ⟨le_refl _, fun _ => rfl⟩
  · rw [if_neg h]
    exact ⟨le_of_not_lt h, fun hc => absurd hc h⟩

/-- C5 (witness): the clamp theorem applied at a one-hour span, grid
budget 6 and base interval of one day. -/
theorem calculateZoom_clamp_witness :
    intervalDuration ⟨TimeUnit.day, 1⟩ ≤
      intervalDuration
        (calculateZoomGridInterval 3600000 6 ⟨TimeUnit.day, 1⟩) ∧
    (intervalDuration (chooseInterval gridIntervals 0 3600000 6) <
        intervalDuration ⟨TimeUnit.day, 1⟩ →
      calculateZoomGridInterval 3600000 6 ⟨TimeUnit.day, 1⟩ =
        ⟨TimeUnit.day, 1⟩) :=
  calculateZoom_clamp 3600000 6 ⟨TimeUnit.day, 1⟩

/-- C2: the inferred base interval is `chooseInterval(0, minDifference, 1)`
followed by exactly the claimed promotions in the claimed order, and a
minimum series gap of 29.5 days (2,548,800,000 ms) infers base interval
`{month, 1}` — not `{day, 30}`. -/
theorem updateAxisBySeries_base_inference :
    (∀ md : ℚ, updateAxisBySeriesInterval md = specBaseGranularity md) ∧
    updateAxisBySeriesInterval 2548800000 = ⟨TimeUnit.month, 1⟩ ∧
    (⟨TimeUnit.month, 1⟩ : TimeInterval) ≠ ⟨TimeUnit.day, 30⟩ := by
  refine ⟨?_, ?_, by decide⟩
  · intro md
    simp only [updateAxisBySeriesInterval, specBaseGranularity,
      show getDuration TimeUnit.day 27 = 2332800000 by
        norm_num [getDuration, unitDuration],
      show getDuration TimeUnit.day (29 * 2) = 5011200000 by
        norm_num [getDuration, unitDuration],
      show getDuration TimeUnit.day (29 * 3) = 7516800000 by
        norm_num [getDuration, unitDuration],
      show getDuration TimeUnit.day (29 * 6) = 15033600000 by
        norm_num [getDuration, unitDuration],
      show getDuration TimeUnit.hour 23 = 82800000 by
        norm_num [getDuration, unitDuration],
      show getDuration TimeUnit.week 1 - getDuration TimeUnit.hour 1 =
          (601200000 : ℚ) by norm_num [getDuration, unitDuration],
      show getDuration TimeUnit.year 1 - getDuration TimeUnit.day 1.01 =
          (31448736000 : ℚ) by norm_num [getDuration, unitDuration]]
  · have hbase : chooseInterval gridIntervals 0 (2548800000 : ℚ) 1 =
        ⟨TimeUnit.week, 1⟩ := by
      rw [show ((2548800000 : ℚ)) = ((2548800000 : ℤ) : ℚ) by norm_num,
        show ((1 : ℚ)) = ((1 : ℤ) : ℚ) by norm_num, chooseInterval_eq_Z]
      decide
    simp only [updateAxisBySeriesInterval, hbase]
    norm_num [getDuration, unitDuration]
    decide

/-- C3: Scenario C — with `skipEmptyPeriods` on, base interval `{day,1}`,
axis range day 4 (Monday 1970-01-05) to day 23, and data present on the
fifteen weekdays of three weeks and absent on the two weekends in
between, the rebuilt break list is exactly one break per weekend, each
opening at Saturday 00:00 and closing at Monday 00:00 minus one
millisecond (777600000 = day 9, a Saturday; 950399999 = day 11 − 1 ms,
one millisecond before a Monday midnight; likewise days 16 and 18 for
the second weekend). -/
theorem addEmptyUnitsBreaks_weekends :
    addEmptyUnitsBreaks true weekdayHasData TimeUnit.day 1
        345600000 1987200000 =
      [⟨777600000, some 950399999⟩, ⟨1382400000, some 1555199999⟩] := by
  decide

/-- Invariant carried through the empty-period scan: the accumulated
breaks are well formed, all of them are closed strictly before the
current scan date, and a currently-open break starts after every closed
one and no later than the scan date. -/
theorem scanEmptyUnits_invariant (hasData : ℤ → Bool) (d maxV : ℤ)
    (hd : 1 ≤ d) :
    ∀ fuel : ℕ, ∀ date : ℤ, ∀ acc : List ScanBreak, ∀ opn : Option ℤ,
      acc.Pairwise breakRel →
      (∀ b ∈ acc, ∃ e, b.endValue = some e ∧ b.startValue ≤ e ∧ e < date) →
      (∀ s, opn = some s → s ≤ date ∧
        ∀ b ∈ acc, ∃ e, b.endValue = some e ∧ e < s) →
      breaksWellFormed (scanEmptyUnits hasData d maxV fuel date acc opn) := by
  intro fuel
  induction fuel with
  | zero =>
    intro date acc opn h1 h2 h3
    constructor
    · rw [scanEmptyUnits, List.pairwise_append]
      refine ⟨h1, ?_, ?_⟩
      · cases opn with
        | none => simp [openToList]
        | some s => simp [openToList]
      · intro b hb b2 hb2
        cases opn with
        | none => simp [openToList] at hb2
        | some s =>
          simp only [openToList, List.mem_singleton] at hb2
          obtain ⟨e, he, hes⟩ := (h3 s rfl).2 b hb
          exact ⟨e, he, by rw [hb2]; exact hes⟩
    · intro b hb e he
      rw [scanEmptyUnits, List.mem_append] at hb
      cases hb with
      | inl h => obtain ⟨e2, he2, hse, _⟩ := h2 b h; rw [he2] at he
                 cases he; exact hse
      | inr h =>
        cases opn with
        | none => simp [openToList] at h
        | some s =>
          simp only [openToList, List.mem_singleton] at h
          rw [h] at he
          cases he
  | succ fuel ih =>
    intro date acc opn h1 h2 h3
    rw [scanEmptyUnits]
    by_cases hloop : date < maxV - d
    · rw [if_pos hloop]
      by_cases hdata : hasData (date + d) = true
      · rw [if_pos hdata]
        cases opn with
        | none =>
          exact ih (date + d) acc none h1
            (fun b hb => by
              obtain ⟨e, he, hse, hlt⟩ := h2 b hb
              exact ⟨e, he, hse, by omega⟩)
            (fun s hs => by cases hs)
        | some s =>
          have hsd := h3 s rfl
          refine ih (date + d) (acc ++ [⟨s, some (date + d - 1)⟩]) none ?_ ?_
            (fun s2 hs2 => by cases hs2)
          · rw [List.pairwise_append]
            refine ⟨h1, by simp, ?_⟩
            intro b hb b2 hb2
            simp only [List.mem_singleton] at hb2
            obtain ⟨e, he, hes⟩ := hsd.2 b hb
            exact ⟨e, he, by rw [hb2]; exact hes⟩
          · intro b hb
            rw [List.mem_append] at hb
            cases hb with
            | inl h =>
              obtain ⟨e, he, hse, hlt⟩ := h2 b h
              exact ⟨e, he, hse, by omega⟩
            | inr h =>
              simp only [List.mem_singleton] at h
              rw [h]
              refine ⟨date + d - 1, rfl, ?_, ?_⟩
              · show s ≤ date + d - 1
                have hs1 := hsd.1
                omega
              · show date + d - 1 < date + d
                omega
      · rw [if_neg hdata]
        cases opn with
        | none =>
          refine ih (date + d) acc (some (date + d)) h1
            (fun b hb => by
              obtain ⟨e, he, hse, hlt⟩ := h2 b hb
              exact ⟨e, he, hse, by omega⟩) ?_
          intro s2 hs2
          cases hs2
          exact ⟨le_refl _, fun b hb => by
            obtain ⟨e, he, hse, hlt⟩ := h2 b hb
            exact ⟨e, he, by omega⟩⟩
        | some s =>
          have hsd := h3 s rfl
          refine ih (date + d) acc (some s) h1
            (fun b hb => by
              obtain ⟨e, he, hse, hlt⟩ := h2 b hb
              exact ⟨e, he, hse, by omega⟩) ?_
          intro s2 hs2
          cases hs2
          exact ⟨by omega, hsd.2⟩
    · rw [if_neg hloop]
      constructor
      · rw [List.pairwise_append]
        refine ⟨h1, ?_, ?_⟩
        · cases opn with
          | none => simp [openToList]
          | some s => simp [openToList]
        · intro b hb b2 hb2
          cases opn with
          | none => simp [openToList] at hb2
          | some s =>
            simp only [openToList, List.mem_singleton] at hb2
            obtain ⟨e, he, hes⟩ := (h3 s rfl).2 b hb
            exact ⟨e, he, by rw [hb2]; exact hes⟩
      · intro b hb e he
        rw [List.mem_append] at hb
        cases hb with
        | inl h => obtain ⟨e2, he2, hse, _⟩ := h2 b h; rw [he2] at he
                   cases he; exact hse
        | inr h =>
          cases opn with
          | none => simp [openToList] at h
          | some s =>
            simp only [openToList, List.mem_singleton] at h
            rw [h] at he
            cases he

/-- Scan from an empty break list yields a pairwise ordered, disjoint
break list (any fuel, any start date). -/
theorem scanEmptyUnits_pairwise (hasData : ℤ → Bool) (d maxV : ℤ)
    (hd : 1 ≤ d) (fuel : ℕ) (date : ℤ) :
    (scanEmptyUnits hasData d maxV fuel date [] none).Pairwise
      (fun b1 b2 =>
        b1.startValue < b2.startValue ∧
        ∀ t e1 e2, b1.endValue = some e1 → b2.endValue = some e2 →
          ¬(b1.startValue ≤ t ∧ t < e1 ∧ b2.startValue ≤ t ∧ t < e2)) := by
  have hwf := scanEmptyUnits_invariant hasData d maxV hd fuel date [] none
    List.Pairwise.nil (by intro b hb; cases hb) (by intro s hs; cases hs)
  refine hwf.1.imp_of_mem ?_
  intro b1 b2 hb1 hb2 hrel
  obtain ⟨e, he, helt⟩ := hrel
  have hse : b1.startValue ≤ e := hwf.2 b1 hb1 e he
  refine ⟨lt_of_le_of_lt hse helt, ?_⟩
  intro t e1 e2 he1 he2 ⟨_, ht1, ht2, _⟩
  rw [he] at he1
  cases he1
  omega

/-- C7: for every configuration with a positive base-interval count, the
breaks produced by `addEmptyUnitsBreaks` are in chronological order and
no two of their `[startValue, endValue)` ranges intersect. -/
theorem addEmptyUnitsBreaks_sorted_disjoint (skipEmptyPeriods : Bool)
    (hasData : ℤ → Bool) (u : TimeUnit) (count : ℕ) (minV maxV : ℤ)
    (hc : 1 ≤ count) :
    (addEmptyUnitsBreaks skipEmptyPeriods hasData u count minV
        maxV).Pairwise (fun b1 b2 =>
      b1.startValue < b2.startValue ∧
      ∀ t e1 e2, b1.endValue = some e1 → b2.endValue = some e2 →
        ¬(b1.startValue ≤ t ∧ t < e1 ∧ b2.startValue ≤ t ∧ t < e2)) := by
  unfold addEmptyUnitsBreaks
  by_cases hskip : skipEmptyPeriods = true
  · rw [if_pos hskip]
    have hd : (1 : ℤ) ≤ ((unitDuration u * count : ℕ) : ℤ) := by
      have h1 : 1 ≤ unitDuration u := by cases u <;> simp [unitDuration]
      have h2 : 1 ≤ unitDuration u * count :=
        Nat.one_le_iff_ne_zero.2 (by positivity)
      exact_mod_cast h2
    exact scanEmptyUnits_pairwise hasData _ maxV hd _ _
  · rw [if_neg hskip]
    exact List.Pairwise.nil

/-- C7 (witness): the non-overlap theorem applied to the Scenario C
configuration restricted to its first two weeks. -/
theorem addEmptyUnitsBreaks_sorted_disjoint_witness :
    (addEmptyUnitsBreaks true weekdayHasData TimeUnit.day 1
        345600000 1382400000).Pairwise (fun b1 b2 =>
      b1.startValue < b2.startValue ∧
      ∀ t e1 e2, b1.endValue = some e1 → b2.endValue = some e2 →
        ¬(b1.startValue ≤ t ∧ t < e1 ∧ b2.startValue ≤ t ∧ t < e2)) :=
  addEmptyUnitsBreaks_sorted_disjoint true weekdayHasData TimeUnit.day 1
    345600000 1382400000 (by decide)

/-- C6: on an axis with no breaks, `valueToPosition ∘ positionToValue`
is the identity on `[0, 1]` (exactly, hence within floating tolerance),
and the horizontal pixel projection `positionToPoint` and its inverse
`pointToPosition` are exact inverses on `[0, 1]`. -/
theorem position_roundtrip (minV maxV len p : ℚ)
    (hmm : minV < maxV) (hlen : 0 < len) (hp0 : 0 ≤ p) (hp1 : p ≤ 1) :
    valueToPosition minV maxV (positionToValue minV maxV p) = p ∧
    pointToPosition len (positionToPoint len p) = p := by
  constructor
  · unfold valueToPosition positionToValue
    have h : maxV - minV ≠ 0 := by
      intro hz
      rw [sub_eq_zero] at hz
      exact absurd hz (ne_of_gt hmm)
    field_simp
  · unfold pointToPosition positionToPoint coordinateToPosition
      positionToCoordinate
    field_simp

/-- C6 (witness): the round-trip theorem at `p = 1/2` on a one-day axis
range projected onto a 500-pixel axis. -/
theorem position_roundtrip_witness :
    valueToPosition 0 86400000 (positionToValue 0 86400000 (1 / 2)) = 1 / 2 ∧
    pointToPosition 500 (positionToPoint 500 (1 / 2)) = 1 / 2 :=
  position_roundtrip 0 86400000 500 (1 / 2)
    (by norm_num) (by norm_num) (by norm_num) (by norm_num)

/-- Rounding to the unit boundary is idempotent. -/
theorem timeRound_one_idem (u : TimeUnit) (t : ℤ) :
    timeRound u 1 (timeRound u 1 t) = timeRound u 1 t := by
  have hd : ((unitDuration u * 1 : ℕ) : ℤ) ≠ 0 := by
    cases u <;> decide
  show (t / ((unitDuration u * 1 : ℕ) : ℤ) * ((unitDuration u * 1 : ℕ) : ℤ)) /
      ((unitDuration u * 1 : ℕ) : ℤ) * ((unitDuration u * 1 : ℕ) : ℤ) =
    t / ((unitDuration u * 1 : ℕ) : ℤ) * ((unitDuration u * 1 : ℕ) : ℤ)
  rw [Int.mul_ediv_cancel _ hd]

/-- C4: whenever `getGridDate` returns (within any recursion budget), the
returned grid date lies at least one full grid interval past the rounded
starting date when measured with break durations removed: the number of
whole units (JS-rounded) of the break-adjusted elapsed duration is at
least `gridInterval.count`. -/
theorem getGridDate_step_correction (u : TimeUnit) (realCount : ℕ)
    (breaks : List ABreak) (fuel : ℕ) (date : ℤ) (intervalCount : ℕ)
    (r : ℤ)
    (h : getGridDate u realCount breaks fuel date intervalCount = some r) :
    (realCount : ℤ) ≤
      jsRound (adjustDifference breaks (timeRound u 1 date) r /
        (unitDuration u : ℚ)) := by
  induction fuel generalizing date intervalCount with
  | zero => simp [getGridDate] at h
  | succ fuel ih =>
    simp only [getGridDate] at h
    split at h
    case isTrue hguard =>
      have hrec := ih (timeRound u 1 date) (intervalCount + realCount) h
      rwa [timeRound_one_idem] at hrec
    case isFalse hguard =>
      rw [Option.some.injEq] at h
      subst h
      omega

/-- Evaluation of the walker across `demoBreaks`: starting from day 1
with one step of a `{day,1}` grid interval, the step lands inside the
break and the walker returns the break's end, day 3. -/
theorem getGridDate_demo_eval :
    getGridDate TimeUnit.day 1 demoBreaks 3 86400000 1 = some 259200000 := by
  have h32 : (⌊(3 : ℚ) / 2⌋ : ℤ) = 1 := by
    rw [show ((3 : ℚ)) = ((3 : ℤ) : ℚ) by norm_num,
      show ((2 : ℚ)) = ((2 : ℕ) : ℚ) by norm_num,
      Rat.floor_intCast_div_natCast]
    decide
  norm_num [getGridDate, demoBreaks, timeRound, timeAdd, isInBreak,
    adjustDifference, breakOverlap, jsRound, unitDuration, List.find?, h32]

/-- C4 (witness): the step-correction theorem at the `demoBreaks`
configuration, evaluated concretely. -/
theorem getGridDate_step_correction_witness :
    (1 : ℤ) ≤
      jsRound (adjustDifference demoBreaks
        (timeRound TimeUnit.day 1 86400000) 259200000 /
        (unitDuration TimeUnit.day : ℚ)) :=
  getGridDate_step_correction TimeUnit.day 1 demoBreaks 3 86400000 1
    259200000 getGridDate_demo_eval

/-- Evaluation of the break's own grid interval at the counterexample
configuration: a one-hour break with the full six-line grid budget gets
a `{minute, 10}` grid. -/
theorem cexFixBreak_gridInterval :
    fixBreakGridInterval 6 0 1 cexFixBreak = ⟨TimeUnit.minute, 10⟩ := by
  have hgc : fixBreakGridCount 6 0 1 cexFixBreak = 6 := by
    rw [fixBreakGridCount,
      show (6 * (min 1 cexFixBreak.endPosition -
          max 0 cexFixBreak.startPosition) / (1 - 0) : ℚ) = ((6 : ℤ) : ℚ) by
        norm_num [cexFixBreak],
      Int.ceil_intCast]
  rw [fixBreakGridInterval, hgc,
    show ((cexFixBreak.adjustedEndValue -
        cexFixBreak.adjustedStartValue : ℤ) : ℚ) = ((3600000 : ℤ) : ℚ) by
      norm_num [cexFixBreak],
    chooseInterval_eq_Z]
  decide

/-- C8 (counterexample): for the `cexFixBreak` break, rounding the
adjusted start value `00:05:00.123` at the break's own `{minute, 10}`
interval lands at `00:00:00.000`, strictly before the break's actual
start — the claim says this is nudged forward one step (to 00:10), but
the source's guard is `gridDate > startDate`, so it keeps the rounded
date `0`. -/
theorem fixAxisBreaks_gridDate_cex :
    fixBreakGridDate 6 0 1 cexFixBreak = 0 ∧
    claimFixBreakGridDate 6 0 1 cexFixBreak = 600000 ∧
    (0 : ℤ) ≠ 600000 := by
  refine ⟨?_, ?_, by decide⟩
  · rw [fixBreakGridDate, cexFixBreak_gridInterval]
    norm_num [timeRound, timeAdd, unitDuration, cexFixBreak]
  · rw [claimFixBreakGridDate, cexFixBreak_gridInterval]
    norm_num [timeRound, timeAdd, unitDuration, cexFixBreak]

/-- C8 (amended): for every break, `fixAxisBreaks` recomputes the break's
own grid interval via the interval selector with the grid budget scaled
by the break's share of the visible axis range, and sets the break's
`gridDate` to the adjusted start value rounded at that interval, nudged
forward one step if rounding landed strictly after the break's actual
start (which can only happen when overlap adjustment moved the adjusted
start past the actual start date; a rounding that lands before the
actual start is kept as is). -/
theorem fixAxisBreaks_gridDate (gridCount start endP : ℚ) (b : FixBreak) :
    fixBreakGridInterval gridCount start endP b =
      chooseInterval gridIntervals 0
        ((b.adjustedEndValue - b.adjustedStartValue : ℤ) : ℚ)
        ((Int.ceil (gridCount * (min endP b.endPosition -
            max start b.startPosition) / (endP - start)) : ℤ) : ℚ) ∧
    (b.startDate <
        timeRound (fixBreakGridInterval gridCount start endP b).timeUnit
          (fixBreakGridInterval gridCount start endP b).count
          b.adjustedStartValue →
      fixBreakGridDate gridCount start endP b =
        timeAdd (fixBreakGridInterval gridCount start endP b).timeUnit
          ((fixBreakGridInterval gridCount start endP b).count : ℤ)
          (timeRound (fixBreakGridInterval gridCount start endP b).timeUnit
            (fixBreakGridInterval gridCount start endP b).count
            b.adjustedStartValue)) ∧
    (timeRound (fixBreakGridInterval gridCount start endP b).timeUnit
        (fixBreakGridInterval gridCount start endP b).count
        b.adjustedStartValue ≤ b.startDate →
      fixBreakGridDate gridCount start endP b =
        timeRound (fixBreakGridInterval gridCount start endP b).timeUnit
          (fixBreakGridInterval gridCount start endP b).count
          b.adjustedStartValue) := by
  refine ⟨rfl, ?_, ?_⟩
  · intro hlt
    rw [fixBreakGridDate, if_pos hlt]
  · intro hle
    rw [fixBreakGridDate, if_neg (not_lt.2 hle)]

/-- C8 (witness): the amended theorem applied at the counterexample
break configuration. -/
theorem fixAxisBreaks_gridDate_witness :
    fixBreakGridInterval 6 0 1 cexFixBreak =
      chooseInterval gridIntervals 0
        ((cexFixBreak.adjustedEndValue -
            cexFixBreak.adjustedStartValue : ℤ) : ℚ)
        ((Int.ceil ((6 : ℚ) * (min 1 cexFixBreak.endPosition -
            max 0 cexFixBreak.startPosition) / (1 - 0)) : ℤ) : ℚ) ∧
    (cexFixBreak.startDate <
        timeRound (fixBreakGridInterval 6 0 1 cexFixBreak).timeUnit
          (fixBreakGridInterval 6 0 1 cexFixBreak).count
          cexFixBreak.adjustedStartValue →
      fixBreakGridDate 6 0 1 cexFixBreak =
        timeAdd (fixBreakGridInterval 6 0 1 cexFixBreak).timeUnit
          ((fixBreakGridInterval 6 0 1 cexFixBreak).count : ℤ)
          (timeRound (fixBreakGridInterval 6 0 1 cexFixBreak).timeUnit
            (fixBreakGridInterval 6 0 1 cexFixBreak).count
            cexFixBreak.adjustedStartValue)) ∧
    (timeRound (fixBreakGridInterval 6 0 1 cexFixBreak).timeUnit
        (fixBreakGridInterval 6 0 1 cexFixBreak).count
        cexFixBreak.adjustedStartValue ≤ cexFixBreak.startDate →
      fixBreakGridDate 6 0 1 cexFixBreak =
        timeRound (fixBreakGridInterval 6 0 1 cexFixBreak).timeUnit
          (fixBreakGridInterval 6 0 1 cexFixBreak).count
          cexFixBreak.adjustedStartValue) :=
  fixAxisBreaks_gridDate 6 0 1 cexFixBreak

/-- C9: Scenario A — `chooseInterval(0, 3600000, 6)` over the default
catalog returns `{minute, 10}` (the coarsest default interval fitting a
one-hour span in at most six grid steps). -/
theorem scenarioA_chooseInterval :
    chooseInterval gridIntervals 0 3600000 6 = ⟨TimeUnit.minute, 10⟩ := by
  rw [show ((3600000 : ℚ)) = ((3600000 : ℤ) : ℚ) by norm_num,
    show ((6 : ℚ)) = ((6 : ℤ) : ℚ) by norm_num, chooseInterval_eq_Z]
  decide

/-- C1 (counterexample): at span `D = 999` ms and grid budget `N = 1`,
`chooseInterval(0, D, N)` takes the small-span step-back branch and
returns `{millisecond, 500}`, for which `ceil(D / duration) = 2 > 1`,
even though `{millisecond, 500}` is not the catalog's coarsest entry. -/
theorem chooseInterval_bound_cex :
    chooseInterval gridIntervals 0 999 1 = ⟨TimeUnit.millisecond, 500⟩ ∧
    ¬ (((⌈(999 : ℚ) / intervalDuration ⟨TimeUnit.millisecond, 500⟩⌉ : ℤ) : ℚ) ≤ 1) ∧
    (⟨TimeUnit.millisecond, 500⟩ : TimeInterval) ≠
      gridIntervals.getD (gridIntervals.length - 1) default := by
  refine ⟨?_, ?_, by decide⟩
  · rw [show ((999 : ℚ)) = ((999 : ℤ) : ℚ) by norm_num,
      show ((1 : ℚ)) = ((1 : ℤ) : ℚ) by norm_num, chooseInterval_eq_Z]
    decide
  · rw [intervalDuration_eq_cast,
      show ((999 : ℚ)) = ((999 : ℤ) : ℚ) by norm_num, ceil_cast_div_natCast,
      show ((1 : ℚ)) = ((1 : ℤ) : ℚ) by norm_num, Int.cast_le]
    decide

/-- C1 (amended): for every span `D > 0` and grid budget `N ≥ 1`, the
interval returned by `chooseInterval(0, D, N)` over the default catalog
satisfies `ceil(D / duration) ≤ N`, except when it is the catalog's
coarsest entry, or when it was produced by the small-span step-back
branch — i.e. it is the immediate predecessor of a catalog entry whose
duration exceeds `D`. -/
theorem chooseInterval_boundedness (D G : ℚ) (hD : 0 < D) (hG : 1 ≤ G) :
    (((⌈D / intervalDuration (chooseInterval gridIntervals 0 D G)⌉ : ℤ) : ℚ) ≤ G)
    ∨ chooseInterval gridIntervals 0 D G =
        gridIntervals.getD (gridIntervals.length - 1) default
    ∨ ∃ j, j + 1 < gridIntervals.length ∧
        chooseInterval gridIntervals 0 D G = gridIntervals.getD j default ∧
        D < intervalDuration (gridIntervals.getD (j + 1) default) :=
  chooseIntervalGo_bound gridIntervals D G gridIntervals.length 0
    (by decide) (by omega)

/-- C1 (witness): the amended boundedness theorem applied at the concrete
span of one hour with grid budget 6. -/
theorem chooseInterval_boundedness_witness :
    (((⌈(3600000 : ℚ) /
          intervalDuration (chooseInterval gridIntervals 0 3600000 6)⌉ : ℤ) : ℚ) ≤ 6)
    ∨ chooseInterval gridIntervals 0 3600000 6 =
        gridIntervals.getD (gridIntervals.length - 1) default
    ∨ ∃ j, j + 1 < gridIntervals.length ∧
        chooseInterval gridIntervals 0 3600000 6 = gridIntervals.getD j default ∧
        (3600000 : ℚ) < intervalDuration (gridIntervals.getD (j + 1) default) :=
  chooseInterval_boundedness 3600000 6 (by norm_num) (by norm_num)

end DateAxis
